import Mathlib

/-!
Verification of the live output stream multiplexer of the garden repository.

The definitions below are a shallow embedding of `server/streamer/streamer.go`
(the Stream Registry) and of the connection adapter
(`server/stream_handling.go`, `server/streamer.go`).  Go channels carrying
`[]byte` chunks are modelled as FIFO lists of chunks; the one-shot `done`
channel is a boolean flag (closed or not); an `io.Writer` sink is modelled as
a state recording which write calls succeed and the chunks successfully
written; a Go `panic` is modelled as `Option.none`; the `uint32` arithmetic of
stream identifiers is carried out on `Nat` with explicit reduction mod 2^32.

The select-based forwarding loop `streamUntilStopped` terminates only when the
sink write fails or the stopped signal fires; its embedding is a total
function over a schedule parameter `k`: the number of times the select's
receive branch wins before the done branch is observed.  The value of the
function models the completed run of the loop, which in the real program is
reached once `Stop` has fired the done signal.
-/

namespace Streamer

/-- A `[]byte` chunk sent over a channel. -/
abbrev Chunk := List Nat

/-- Model of an `io.Writer` sink: `ok n` tells whether the n-th `Write` call
on this sink returns without error, `calls` counts the `Write` calls made so
far, and `received` lists the chunks successfully written to the sink. -/
structure WriterState where
  ok : Nat → Bool
  calls : Nat
  received : List Chunk

/-- One `writer.Write(b)` call: the call is counted; on success the chunk is
appended to the sink's received output and `true` (no error) is returned. -/
def WriterState.write (w : WriterState) (b : Chunk) : WriterState × Bool :=
  if w.ok w.calls then
    ({ w with calls := w.calls + 1, received := w.received ++ [b] }, true)
  else
    ({ w with calls := w.calls + 1 }, false)

/-- The body of `drain` (streamer.go:123-132): `drainCount := len(ch)`
iterations of a non-blocking receive; each received chunk is written with the
write error ignored (`writer.Write(b)` with no error check).  The first
argument is the remaining iteration count, the second the channel content.
Returns the final sink state and the remaining channel content. -/
def drainLoop : Nat → List Chunk → WriterState → WriterState × List Chunk
  | 0, ch, w => (w, ch)
  | _ + 1, [], w => (w, [])
  | n + 1, b :: rest, w => drainLoop n rest (w.write b).1

/-- `drain(ch, writer)` (streamer.go:123-132): a bounded non-blocking sweep of
the `len(ch)` chunks buffered in the channel at entry. -/
def drain (ch : List Chunk) (w : WriterState) : WriterState × List Chunk :=
  drainLoop ch.length ch w

/-- `streamUntilStopped(ch, done, writer)` (streamer.go:109-121).  The select
loop forwards chunks until a write fails (return with the rest of the channel
untouched) or the done branch is observed, at which point it switches to
`drain` and returns.  `k` is the schedule: how many receive branches win
before the done branch is observed (the select picks nondeterministically
when both are ready; with the channel empty the loop blocks until done). -/
def streamUntilStopped : Nat → List Chunk → WriterState → WriterState × List Chunk
  | 0, ch, w => drain ch w
  | _ + 1, [], w => drain [] w
  | k + 1, b :: rest, w =>
    let p := w.write b
    if p.2 then streamUntilStopped k rest p.1 else (p.1, rest)

/-- A stream entry (streamer.go:51-54): `ch [2]chan []byte` (index 0 stdout,
index 1 stderr) and the one-shot `done` channel (`true` once closed). -/
structure stream where
  ch0 : List Chunk
  ch1 : List Chunk
  done : Bool
deriving Repr, DecidableEq

/-- `strm.ch[i]` of the Go entry. -/
def stream.ch (s : stream) (i : Fin 2) : List Chunk :=
  if i.1 = 0 then s.ch0 else s.ch1

/-- Replace the contents of channel `i` of an entry (the effect of a consumer
having removed chunks from the shared channel). -/
def stream.setCh (s : stream) (i : Fin 2) (c : List Chunk) : stream :=
  if i.1 = 0 then { s with ch0 := c } else { s with ch1 := c }

/-- `m.streams[id]` on the Go map, modelled as an association list. -/
def mget : List (Nat × stream) → Nat → Option stream
  | [], _ => none
  | p :: rest, k => if p.1 = k then some p.2 else mget rest k

/-- `delete(m.streams, id)` on the Go map. -/
def mdel : List (Nat × stream) → Nat → List (Nat × stream)
  | [], _ => []
  | p :: rest, k => if p.1 = k then mdel rest k else p :: mdel rest k

/-- `m.streams[id] = v` on the Go map. -/
def mput (l : List (Nat × stream)) (k : Nat) (v : stream) : List (Nat × stream) :=
  (k, v) :: mdel l k

/-- The registry (streamer.go:43-49).  `nextStreamID` and `maxStreams` are
`uint32` values kept below 2^32; `graceTime` is the grace duration. -/
structure streamer where
  nextStreamID : Nat
  graceTime : Nat
  maxStreams : Nat
  streams : List (Nat × stream)
deriving Repr, DecidableEq

/-- `NewLimited(graceTime, maxStreams)` (streamer.go:35-41). -/
def NewLimited (graceTime maxStreams : Nat) : streamer :=
  { nextStreamID := 0, graceTime := graceTime,
    maxStreams := maxStreams % 4294967296, streams := [] }

/-- `New(graceTime)` (streamer.go:30-32): the limit is `math.MaxUint32`. -/
def New (graceTime : Nat) : streamer := NewLimited graceTime 4294967295

/-- `getAndIncrementStreamID` (streamer.go:80-87): returns the current cursor,
then increments it with `uint32` wrap-around and resets it to 0 when it
reaches `maxStreams`. -/
def getAndIncrementStreamID (m : streamer) : Nat × streamer :=
  let sid := m.nextStreamID
  let n1 := (m.nextStreamID + 1) % 4294967296
  let n2 := if n1 = m.maxStreams then 0 else n1
  (sid, { m with nextStreamID := n2 })

/-- The search loop of `Stream` (streamer.go:59-66):
`for i := uint32(0); !found && i < m.maxStreams; i++`, skipping any cursor
value currently mapped to a live entry.  The first argument is the number of
remaining iterations; `none` models the loop ending without `found`. -/
def findSlot : Nat → streamer → Option streamer
  | 0, _ => none
  | fuel + 1, m =>
    if (mget m.streams m.nextStreamID).isSome then
      findSlot fuel (getAndIncrementStreamID m).2
    else
      some m

/-- `Stream(stdout, stderr)` (streamer.go:56-78).  `none` models the panic
"Number of streams cannot exceed the maximum allowed"; otherwise the chosen
identifier and the updated registry are returned, the new entry holding the
two supplied channels and a fresh (unclosed) done channel. -/
def Stream (m : streamer) (stdout stderr : List Chunk) : Option (Nat × streamer) :=
  match findSlot m.maxStreams m with
  | none => none
  | some m1 =>
    let p := getAndIncrementStreamID m1
    some (p.1, { p.2 with streams := mput p.2.streams p.1 ⟨stdout, stderr, false⟩ })

/-- `getStream` (streamer.go:149-153). -/
def getStream (m : streamer) (streamID : Nat) : Option stream :=
  mget m.streams streamID

/-- `doStream(streamID, writer, chanIndex)` (streamer.go:97-107): no-op on a
nil writer (`none`) and on an unknown identifier; otherwise it runs
`streamUntilStopped` on the selected channel.  Returns the final writer (as
passed in, when the call is a no-op) and the registry with the entry's
channel reflecting the chunks the loop consumed. -/
def doStream (m : streamer) (streamID : Nat) (writer : Option WriterState)
    (chanIndex : Fin 2) (k : Nat) : Option WriterState × streamer :=
  match writer with
  | none => (none, m)
  | some w =>
    match getStream m streamID with
    | none => (some w, m)
    | some strm =>
      let r := streamUntilStopped k (strm.ch chanIndex) w
      (some r.1,
       { m with streams := mput m.streams streamID (strm.setCh chanIndex r.2) })

/-- `StreamStdout` (streamer.go:89-91). -/
def StreamStdout (m : streamer) (streamID : Nat) (writer : Option WriterState)
    (k : Nat) : Option WriterState × streamer :=
  doStream m streamID writer 0 k

/-- `StreamStderr` (streamer.go:93-95). -/
def StreamStderr (m : streamer) (streamID : Nat) (writer : Option WriterState)
    (k : Nat) : Option WriterState × streamer :=
  doStream m streamID writer 1 k

/-- `Stop(streamID)` (streamer.go:134-147), up to its immediate return.
`none` models a panic: the explicit `panic("Invalid stream ID ...")` on an
unknown identifier, and the Go runtime panic of `close(strm.done)` when the
done channel is already closed (double stop).  On a live entry the done
signal is fired; the deferred goroutine that removes the entry after the
grace period is modelled separately by `removeAfterGrace`. -/
def Stop (m : streamer) (streamID : Nat) : Option streamer :=
  match getStream m streamID with
  | none => none
  | some strm =>
    if strm.done then none
    else some { m with streams := mput m.streams streamID { strm with done := true } }

/-- The deferred removal goroutine of `Stop` (streamer.go:141-146): after
`graceTime` elapses the entry is deleted from the registry. -/
def removeAfterGrace (m : streamer) (streamID : Nat) : streamer :=
  { m with streams := mdel m.streams streamID }

theorem mget_mdel_self (l : List (Nat × stream)) (k : Nat) : mget (mdel l k) k = none := by
  induction l with
  | nil => rfl
  | cons p rest ih =>
    by_cases h : p.1 = k
    · simp [mdel, h, ih]
    · simp [mdel, mget, h, ih]

theorem mget_mdel_ne (l : List (Nat × stream)) (j k : Nat) (h : j ≠ k) :
    mget (mdel l k) j = mget l j := by
  induction l with
  | nil => rfl
  | cons p rest ih =>
    by_cases hp : p.1 = k
    · have hk : ¬ (k = j) := fun hh => h hh.symm
      simp [mdel, mget, hp, hk, ih]
    · simp only [mdel, if_neg hp, mget]
      by_cases hj : p.1 = j
      · simp [hj]
      · simp [hj, ih]

theorem mget_mput_self (l : List (Nat × stream)) (k : Nat) (v : stream) :
    mget (mput l k v) k = some v := by
  simp [mput, mget]

theorem mget_mput_ne (l : List (Nat × stream)) (j k : Nat) (v : stream) (h : j ≠ k) :
    mget (mput l k v) j = mget l j := by
  have : k ≠ j := fun hh => h hh.symm
  simp only [mput, mget, if_neg this]
  exact mget_mdel_ne l j k h

theorem write_of_ok (w : WriterState) (b : Chunk) (h : w.ok w.calls = true) :
    w.write b = ({ w with calls := w.calls + 1, received := w.received ++ [b] }, true) := by
  simp [WriterState.write, h]

theorem write_of_fail (w : WriterState) (b : Chunk) (h : w.ok w.calls = false) :
    w.write b = ({ w with calls := w.calls + 1 }, false) := by
  simp [WriterState.write, h]

theorem write_fst_ok_field (w : WriterState) (b : Chunk) : ((w.write b).1).ok = w.ok := by
  unfold WriterState.write
  split <;> rfl

theorem write_fst_calls (w : WriterState) (b : Chunk) :
    ((w.write b).1).calls = w.calls + 1 := by
  unfold WriterState.write
  split <;> rfl

theorem drainLoop_shape (ch : List Chunk) : ∀ (w : WriterState),
    (drainLoop ch.length ch w).2 = []
    ∧ (drainLoop ch.length ch w).1.calls = w.calls + ch.length
    ∧ (drainLoop ch.length ch w).1.ok = w.ok := by
  induction ch with
  | nil => exact fun w => ⟨rfl, rfl, rfl⟩
  | cons b rest ih =>
    intro w
    simp only [List.length_cons, drainLoop]
    obtain ⟨h1, h2, h3⟩ := ih (w.write b).1
    refine ⟨h1, ?_, h3.trans (write_fst_ok_field w b)⟩
    rw [h2, write_fst_calls]
    omega

theorem drainLoop_received_allOk (ch : List Chunk) : ∀ (w : WriterState),
    (∀ n, w.ok n = true) →
    (drainLoop ch.length ch w).1.received = w.received ++ ch := by
  induction ch with
  | nil => intro w _; simp [drainLoop]
  | cons b rest ih =>
    intro w hok
    simp only [List.length_cons, drainLoop, write_of_ok w b (hok w.calls)]
    rw [ih ({ w with calls := w.calls + 1, received := w.received ++ [b] }) (fun n => hok n)]
    simp

theorem drainLoop_received_sublist (n : Nat) : ∀ (ch : List Chunk) (w : WriterState),
    ∃ l, (drainLoop n ch w).1.received = w.received ++ l ∧ l.Sublist ch := by
  induction n with
  | zero => exact fun ch w => ⟨[], by simp [drainLoop], List.nil_sublist ch⟩
  | succ n ih =>
    intro ch w
    cases ch with
    | nil => exact ⟨[], by simp [drainLoop], List.nil_sublist []⟩
    | cons b rest =>
      simp only [drainLoop]
      by_cases h : w.ok w.calls
      · obtain ⟨l, hl, hs⟩ := ih rest ({ w with calls := w.calls + 1, received := w.received ++ [b] })
        refine ⟨b :: l, ?_, hs.cons₂ b⟩
        rw [write_of_ok w b h]
        simpa using hl
      · obtain ⟨l, hl, hs⟩ := ih rest ({ w with calls := w.calls + 1 })
        refine ⟨l, ?_, hs.cons b⟩
        rw [write_of_fail w b (by simpa using h)]
        simpa using hl

theorem streamUntilStopped_allOk (k : Nat) : ∀ (ch : List Chunk) (w : WriterState),
    (∀ n, w.ok n = true) →
    (streamUntilStopped k ch w).1.received = w.received ++ ch
    ∧ (streamUntilStopped k ch w).2 = [] := by
  induction k with
  | zero =>
    intro ch w hok
    exact ⟨drainLoop_received_allOk ch w hok, (drainLoop_shape ch w).1⟩
  | succ k ih =>
    intro ch w hok
    cases ch with
    | nil => constructor <;> simp [streamUntilStopped, drain, drainLoop]
    | cons b rest =>
      have hstep : streamUntilStopped (k + 1) (b :: rest) w
          = streamUntilStopped k rest ({ w with calls := w.calls + 1, received := w.received ++ [b] }) := by
        simp [streamUntilStopped, write_of_ok w b (hok w.calls)]
      rw [hstep]
      obtain ⟨h1, h2⟩ := ih rest ({ w with calls := w.calls + 1, received := w.received ++ [b] })
        (fun n => hok n)
      refine ⟨?_, h2⟩
      rw [h1]
      simp

theorem streamUntilStopped_received_sublist (k : Nat) : ∀ (ch : List Chunk) (w : WriterState),
    ∃ l, (streamUntilStopped k ch w).1.received = w.received ++ l ∧ l.Sublist ch := by
  induction k with
  | zero => exact fun ch w => drainLoop_received_sublist ch.length ch w
  | succ k ih =>
    intro ch w
    cases ch with
    | nil => exact ⟨[], by simp [streamUntilStopped, drain, drainLoop], List.nil_sublist []⟩
    | cons b rest =>
      simp only [streamUntilStopped]
      by_cases h : w.ok w.calls
      · obtain ⟨l, hl, hs⟩ := ih rest ({ w with calls := w.calls + 1, received := w.received ++ [b] })
        refine ⟨b :: l, ?_, hs.cons₂ b⟩
        rw [write_of_ok w b h]
        simpa using hl
      · refine ⟨[], ?_, List.nil_sublist _⟩
        rw [write_of_fail w b (by simpa using h)]
        simp

theorem streamUntilStopped_write_fail (k : Nat) (b : Chunk) (rest : List Chunk)
    (w : WriterState) (h : w.ok w.calls = false) :
    streamUntilStopped (k + 1) (b :: rest) w = ({ w with calls := w.calls + 1 }, rest) := by
  simp [streamUntilStopped, write_of_fail w b h]

theorem gai_cursor_lt (m : streamer) (hmax : m.maxStreams < 4294967296)
    (hcur : m.nextStreamID < m.maxStreams) :
    ((getAndIncrementStreamID m).2).nextStreamID < m.maxStreams := by
  show (if (m.nextStreamID + 1) % 4294967296 = m.maxStreams then 0
        else (m.nextStreamID + 1) % 4294967296) < m.maxStreams
  have h1 : (m.nextStreamID + 1) % 4294967296 = m.nextStreamID + 1 :=
    Nat.mod_eq_of_lt (by omega)
  rw [h1]
  by_cases h2 : m.nextStreamID + 1 = m.maxStreams
  · simp [h2]; omega
  · simp [h2]; omega

theorem findSlot_some (fuel : Nat) : ∀ (m m1 : streamer), findSlot fuel m = some m1 →
    m1.streams = m.streams ∧ m1.maxStreams = m.maxStreams ∧ m1.graceTime = m.graceTime
    ∧ mget m1.streams m1.nextStreamID = none := by
  induction fuel with
  | zero => intro m m1 h; exact absurd h (by simp [findSlot])
  | succ fuel ih =>
    intro m m1 h
    by_cases hc : (mget m.streams m.nextStreamID).isSome
    · simp only [findSlot, if_pos hc] at h
      exact ih (getAndIncrementStreamID m).2 m1 h
    · simp only [findSlot, if_neg hc] at h
      cases h
      exact ⟨rfl, rfl, rfl, Option.not_isSome_iff_eq_none.mp hc⟩

theorem findSlot_none_of_full (fuel : Nat) : ∀ (m : streamer),
    m.maxStreams < 4294967296 → m.nextStreamID < m.maxStreams →
    (∀ id, id < m.maxStreams → (mget m.streams id).isSome = true) →
    findSlot fuel m = none := by
  induction fuel with
  | zero => intro m _ _ _; rfl
  | succ fuel ih =>
    intro m hmax hcur hful
    have hc : (mget m.streams m.nextStreamID).isSome = true := hful m.nextStreamID hcur
    simp only [findSlot, if_pos hc]
    exact ih (getAndIncrementStreamID m).2 hmax (gai_cursor_lt m hmax hcur) hful

theorem findSlot_succeeds (d : Nat) : ∀ (m : streamer),
    m.maxStreams < 4294967296 → m.nextStreamID < m.maxStreams →
    mget m.streams ((m.nextStreamID + d) % m.maxStreams) = none →
    ∀ fuel, d < fuel → (findSlot fuel m).isSome = true := by
  induction d with
  | zero =>
    intro m _ hcur hnone fuel hf
    have hc : mget m.streams m.nextStreamID = none := by
      simpa [Nat.mod_eq_of_lt hcur] using hnone
    cases fuel with
    | zero => omega
    | succ f => simp [findSlot, hc]
  | succ d ih =>
    intro m hmax hcur hnone fuel hf
    cases fuel with
    | zero => omega
    | succ f =>
      by_cases hc : (mget m.streams m.nextStreamID).isSome
      · simp only [findSlot, if_pos hc]
        have hcur1 : m.nextStreamID + 1 < 4294967296 := by omega
        have hn : mget ((getAndIncrementStreamID m).2).streams
            ((((getAndIncrementStreamID m).2).nextStreamID + d)
              % ((getAndIncrementStreamID m).2).maxStreams) = none := by
          show mget m.streams
            (((if (m.nextStreamID + 1) % 4294967296 = m.maxStreams then 0
               else (m.nextStreamID + 1) % 4294967296) + d) % m.maxStreams) = none
          rw [Nat.mod_eq_of_lt hcur1]
          by_cases h2 : m.nextStreamID + 1 = m.maxStreams
          · rw [if_pos h2]
            have h3 : (0 + d) % m.maxStreams = (m.nextStreamID + (d + 1)) % m.maxStreams := by
              rw [Nat.zero_add]
              conv_rhs => rw [show m.nextStreamID + (d + 1) = m.maxStreams + d by omega]
              rw [Nat.add_comm m.maxStreams d]
              exact (Nat.add_mod_right d m.maxStreams).symm
            rw [h3]
            exact hnone
          · rw [if_neg h2]
            rw [show m.nextStreamID + 1 + d = m.nextStreamID + (d + 1) by omega]
            exact hnone
        exact ih (getAndIncrementStreamID m).2 hmax (gai_cursor_lt m hmax hcur) hn f (by omega)
      · simp [findSlot, hc]

theorem Stream_some_spec (m : streamer) (stdout stderr : List Chunk) (sid : Nat)
    (m' : streamer) (h : Stream m stdout stderr = some (sid, m')) :
    mget m.streams sid = none
    ∧ mget m'.streams sid = some ⟨stdout, stderr, false⟩
    ∧ (∀ j, j ≠ sid → mget m'.streams j = mget m.streams j)
    ∧ m'.maxStreams = m.maxStreams ∧ m'.graceTime = m.graceTime := by
  revert h
  unfold Stream
  cases hfs : findSlot m.maxStreams m with
  | none => intro h; cases h
  | some m1 =>
    intro h
    obtain ⟨hstr, hmaxe, hgr, hfree⟩ := findSlot_some m.maxStreams m m1 hfs
    have hsid : sid = m1.nextStreamID := by cases h; rfl
    have hm' : m' = { (getAndIncrementStreamID m1).2 with
        streams := mput m1.streams m1.nextStreamID ⟨stdout, stderr, false⟩ } := by
      cases h; rfl
    subst hsid hm'
    refine ⟨hstr ▸ hfree, mget_mput_self _ _ _, ?_, hmaxe, hgr⟩
    intro j hj
    rw [show ({ (getAndIncrementStreamID m1).2 with
        streams := mput m1.streams m1.nextStreamID ⟨stdout, stderr, false⟩ } : streamer).streams
      = mput m1.streams m1.nextStreamID ⟨stdout, stderr, false⟩ from rfl]
    rw [mget_mput_ne _ _ _ _ hj, hstr]

theorem Stream_at_free_cursor (m : streamer) (stdout stderr : List Chunk)
    (hfree : mget m.streams m.nextStreamID = none) (hpos : 0 < m.maxStreams) :
    ∃ m', Stream m stdout stderr = some (m.nextStreamID, m') := by
  obtain ⟨f, hf⟩ : ∃ f, m.maxStreams = f + 1 := ⟨m.maxStreams - 1, by omega⟩
  refine ⟨{ (getAndIncrementStreamID m).2 with
      streams := mput m.streams m.nextStreamID ⟨stdout, stderr, false⟩ }, ?_⟩
  unfold Stream
  rw [hf]
  simp [findSlot, hfree, getAndIncrementStreamID]

/-- A sink that accepts every write. -/
def wAll : WriterState := ⟨fun _ => true, 0, []⟩

/-- A sink whose first write call fails and whose later calls succeed. -/
def failFirst : WriterState := ⟨fun n => decide (0 < n), 0, []⟩

/-- Claim C1: a consumer whose forwarding loop begins while the entry is still
registered receives exactly the chunks enqueued on the selected channel, in
enqueue order, with none duplicated or omitted (for a sink that accepts every
write); when the stopped signal is observed the loop switches to `drain`,
which flushes every chunk buffered in the channel at that instant and
returns, leaving the channel empty. -/
theorem C1_forward_exact (m : streamer) (sid : Nat) (strm : stream) (w : WriterState)
    (i : Fin 2) (k : Nat)
    (hget : getStream m sid = some strm)
    (hok : ∀ n, w.ok n = true) :
    (∃ w', (doStream m sid (some w) i k).1 = some w'
        ∧ w'.received = w.received ++ strm.ch i)
    ∧ streamUntilStopped 0 (strm.ch i) w = drain (strm.ch i) w
    ∧ (drain (strm.ch i) w).2 = [] := by
  refine ⟨⟨(streamUntilStopped k (strm.ch i) w).1, ?_,
      (streamUntilStopped_allOk k (strm.ch i) w hok).1⟩, rfl, (drainLoop_shape _ _).1⟩
  simp [doStream, hget]

/-- Witness for C1 on a concrete registry holding one stream with two stdout
chunks. -/
theorem C1_forward_exact_witness :
    (∃ w', (doStream ⟨0, 5, 8, [(3, ⟨[[1], [2]], [[9]], false⟩)]⟩ 3 (some wAll) 0 1).1 = some w'
        ∧ w'.received = wAll.received ++ stream.ch ⟨[[1], [2]], [[9]], false⟩ 0)
    ∧ streamUntilStopped 0 (stream.ch ⟨[[1], [2]], [[9]], false⟩ 0) wAll
        = drain (stream.ch ⟨[[1], [2]], [[9]], false⟩ 0) wAll
    ∧ (drain (stream.ch ⟨[[1], [2]], [[9]], false⟩ 0) wAll).2 = [] :=
  C1_forward_exact ⟨0, 5, 8, [(3, ⟨[[1], [2]], [[9]], false⟩)]⟩ 3
    ⟨[[1], [2]], [[9]], false⟩ wAll 0 1 rfl (fun _ => rfl)

/-- Claim C2: `Stop` on a live identifier fires the entry's done signal and
returns with the entry still registered (removal is the separately scheduled
`removeAfterGrace`); once the grace period has elapsed and the entry has been
removed, any `StreamStdout`/`StreamStderr` call on that identifier is a no-op
in which the sink receives zero bytes and the registry is unchanged. -/
theorem C2_stop_grace_noop (m : streamer) (sid : Nat) (strm : stream) (m' : streamer)
    (hget : getStream m sid = some strm)
    (hstop : Stop m sid = some m') :
    getStream m' sid = some { strm with done := true }
    ∧ ∀ (w : WriterState) (i : Fin 2) (k : Nat),
        doStream (removeAfterGrace m' sid) sid (some w) i k = (some w, removeAfterGrace m' sid) := by
  have hdone : strm.done = false := by
    by_contra hd
    simp only [Stop, hget, Bool.not_eq_false] at hstop hd
    rw [if_pos hd] at hstop
    cases hstop
  have hm' : m' = { m with streams := mput m.streams sid { strm with done := true } } := by
    simp only [Stop, hget, hdone, if_false, Bool.false_eq_true] at hstop
    cases hstop
    rfl
  subst hm'
  constructor
  · exact mget_mput_self _ _ _
  · intro w i k
    simp [doStream, getStream, removeAfterGrace, mget_mdel_self]

/-- Witness for C2 on a concrete registry with one live stream. -/
theorem C2_stop_grace_noop_witness :
    getStream ⟨0, 5, 8, [(2, ⟨[], [], true⟩)]⟩ 2 = some ⟨[], [], true⟩
    ∧ ∀ (w : WriterState) (i : Fin 2) (k : Nat),
        doStream (removeAfterGrace ⟨0, 5, 8, [(2, ⟨[], [], true⟩)]⟩ 2) 2 (some w) i k
          = (some w, removeAfterGrace ⟨0, 5, 8, [(2, ⟨[], [], true⟩)]⟩ 2) :=
  C2_stop_grace_noop ⟨0, 5, 8, [(2, ⟨[], [], false⟩)]⟩ 2 ⟨[], [], false⟩
    ⟨0, 5, 8, [(2, ⟨[], [], true⟩)]⟩ rfl rfl

/-- Claim C3: the identifier returned by `Stream` was not mapped to any live
entry at the moment of selection; in the returned registry it maps to the
fresh entry built from the supplied channels with an unfired done signal;
after removal the identifier is unmapped again, and a subsequent `Stream`
call whose cursor reaches it allocates the same identifier with a new,
fully independent entry. -/
theorem C3_fresh_id_reuse (m : streamer) (stdout stderr : List Chunk) (sid : Nat)
    (m' : streamer) (h : Stream m stdout stderr = some (sid, m')) :
    mget m.streams sid = none
    ∧ mget m'.streams sid = some ⟨stdout, stderr, false⟩
    ∧ mget (removeAfterGrace m' sid).streams sid = none
    ∧ ∀ out2 err2, (removeAfterGrace m' sid).nextStreamID = sid →
        0 < (removeAfterGrace m' sid).maxStreams →
        ∃ m2, Stream (removeAfterGrace m' sid) out2 err2 = some (sid, m2)
          ∧ mget m2.streams sid = some ⟨out2, err2, false⟩ := by
  obtain ⟨h1, h2, _, _, _⟩ := Stream_some_spec m stdout stderr sid m' h
  refine ⟨h1, h2, mget_mdel_self _ _, ?_⟩
  intro out2 err2 hcur hpos
  have hfree : mget (removeAfterGrace m' sid).streams
      ((removeAfterGrace m' sid).nextStreamID) = none := by
    rw [hcur]
    exact mget_mdel_self _ _
  obtain ⟨m2, hm2⟩ := Stream_at_free_cursor (removeAfterGrace m' sid) out2 err2 hfree hpos
  rw [hcur] at hm2
  exact ⟨m2, hm2, (Stream_some_spec _ out2 err2 sid m2 hm2).2.1⟩

/-- Witness for C3: a registry bounded to one identifier allocates id 0, and
after removal a later call reuses id 0 with a fresh entry. -/
theorem C3_fresh_id_reuse_witness :
    mget (NewLimited 0 1).streams 0 = none
    ∧ mget (⟨0, 0, 1, [(0, ⟨[[7]], [[8]], false⟩)]⟩ : streamer).streams 0
        = some ⟨[[7]], [[8]], false⟩
    ∧ mget (removeAfterGrace ⟨0, 0, 1, [(0, ⟨[[7]], [[8]], false⟩)]⟩ 0).streams 0 = none
    ∧ ∀ out2 err2,
        (removeAfterGrace ⟨0, 0, 1, [(0, ⟨[[7]], [[8]], false⟩)]⟩ 0).nextStreamID = 0 →
        0 < (removeAfterGrace ⟨0, 0, 1, [(0, ⟨[[7]], [[8]], false⟩)]⟩ 0).maxStreams →
        ∃ m2, Stream (removeAfterGrace ⟨0, 0, 1, [(0, ⟨[[7]], [[8]], false⟩)]⟩ 0) out2 err2
            = some (0, m2)
          ∧ mget m2.streams 0 = some ⟨out2, err2, false⟩ :=
  C3_fresh_id_reuse (NewLimited 0 1) [[7]] [[8]] 0
    ⟨0, 0, 1, [(0, ⟨[[7]], [[8]], false⟩)]⟩ rfl

/-- Claim C4: with a bounded identifier space in which every identifier is
currently mapped to a live entry, the next `Stream` call fails loudly
(`none` models the panic); once any identifier of the space has been removed
after its grace period, a subsequent `Stream` call succeeds again. -/
theorem C4_capacity (m : streamer) (stdout stderr : List Chunk)
    (hmax : m.maxStreams < 4294967296) (hcur : m.nextStreamID < m.maxStreams) :
    ((∀ id, id < m.maxStreams → (mget m.streams id).isSome = true) →
        Stream m stdout stderr = none)
    ∧ ∀ sid, sid < m.maxStreams →
        ∃ q, Stream (removeAfterGrace m sid) stdout stderr = some q := by
  constructor
  · intro hful
    have hfs := findSlot_none_of_full m.maxStreams m hmax hcur hful
    simp [Stream, hfs]
  · intro sid hsid
    have hfree : mget (removeAfterGrace m sid).streams sid = none := mget_mdel_self _ _
    have hd : ∃ d, d < m.maxStreams ∧ (m.nextStreamID + d) % m.maxStreams = sid := by
      by_cases hc : m.nextStreamID ≤ sid
      · refine ⟨sid - m.nextStreamID, by omega, ?_⟩
        rw [show m.nextStreamID + (sid - m.nextStreamID) = sid by omega,
          Nat.mod_eq_of_lt hsid]
      · refine ⟨sid + m.maxStreams - m.nextStreamID, by omega, ?_⟩
        rw [show m.nextStreamID + (sid + m.maxStreams - m.nextStreamID)
            = sid + m.maxStreams by omega,
          Nat.add_mod_right, Nat.mod_eq_of_lt hsid]
    obtain ⟨d, hdlt, hdeq⟩ := hd
    have hn : mget (removeAfterGrace m sid).streams
        (((removeAfterGrace m sid).nextStreamID + d)
          % (removeAfterGrace m sid).maxStreams) = none := by
      show mget (removeAfterGrace m sid).streams ((m.nextStreamID + d) % m.maxStreams) = none
      rw [hdeq]
      exact hfree
    have hsucc := findSlot_succeeds d (removeAfterGrace m sid) hmax hcur hn
      (removeAfterGrace m sid).maxStreams hdlt
    obtain ⟨m1, hm1⟩ := Option.isSome_iff_exists.mp hsucc
    unfold Stream
    rw [hm1]
    exact ⟨_, rfl⟩

/-- Witness for C4: a registry limited to one identifier, with that identifier
live, rejects the next allocation; after removing it, allocation succeeds. -/
theorem C4_capacity_witness :
    Stream ⟨0, 0, 1, [(0, ⟨[], [], false⟩)]⟩ [[1]] [[2]] = none
    ∧ ∃ q, Stream (removeAfterGrace ⟨0, 0, 1, [(0, ⟨[], [], false⟩)]⟩ 0) [[1]] [[2]] = some q := by
  have h := C4_capacity ⟨0, 0, 1, [(0, ⟨[], [], false⟩)]⟩ [[1]] [[2]] (by decide) (by decide)
  refine ⟨h.1 ?_, h.2 0 (by decide)⟩
  intro id hid
  have hid1 : id < 1 := hid
  have hid0 : id = 0 := by omega
  subst hid0
  rfl

/-- Claim C5: `Stop` returns normally exactly when the identifier is
currently live with an unfired done signal; on an identifier that was never
allocated, already removed, or already stopped, it panics (`none`): the
unknown-id case through the explicit panic, the double-stop case through
the Go runtime panic of closing a closed channel. -/
theorem C5_stop_contract (m : streamer) (sid : Nat) :
    (∃ m', Stop m sid = some m')
      ↔ ∃ strm, getStream m sid = some strm ∧ strm.done = false := by
  cases hg : getStream m sid with
  | none => simp [Stop, hg]
  | some s =>
    by_cases hd : s.done
    · simp [Stop, hg, hd]
    · simp [Stop, hg, hd]

/-- Claim C6: `StreamStdout`/`StreamStderr` with a nil sink, or with an
identifier unknown to the registry, return immediately, hand the sink zero
bytes, and leave the registry unchanged. -/
theorem C6_benign_noop (m : streamer) (sid : Nat) (w : WriterState) (k : Nat) :
    StreamStdout m sid none k = (none, m)
    ∧ StreamStderr m sid none k = (none, m)
    ∧ (getStream m sid = none →
        StreamStdout m sid (some w) k = (some w, m)
        ∧ StreamStderr m sid (some w) k = (some w, m)) := by
  refine ⟨rfl, rfl, fun hg => ⟨?_, ?_⟩⟩ <;>
    simp [StreamStdout, StreamStderr, doStream, hg]

/-- Witness for C6 on an empty registry, whose every identifier is unknown. -/
theorem C6_benign_noop_witness :
    StreamStdout (New 5) 0 none 1 = (none, New 5)
    ∧ StreamStderr (New 5) 0 none 1 = (none, New 5)
    ∧ StreamStdout (New 5) 0 (some wAll) 1 = (some wAll, New 5)
    ∧ StreamStderr (New 5) 0 (some wAll) 1 = (some wAll, New 5) := by
  have h := C6_benign_noop (New 5) 0 wAll 1
  exact ⟨h.1, h.2.1, (h.2.2 rfl).1, (h.2.2 rfl).2⟩

/-- Counterexample to claim C7 as stated: in the draining phase the write
error is ignored (`writer.Write(b)` at streamer.go:128 discards the error),
so after the sink's write of the first buffered chunk fails, the loop does
not terminate: it goes on and delivers the next chunk to the same sink.
Concretely, with two chunks buffered at stop and a sink whose first write
call fails, the completed loop has made two write calls and the sink has
received the second chunk. -/
theorem C7_counterexample :
    failFirst.ok 0 = false
    ∧ (streamUntilStopped 0 [[97], [98]] failFirst).1.received = [[98]]
    ∧ (streamUntilStopped 0 [[97], [98]] failFirst).1.calls = 2 := by
  exact ⟨rfl, rfl, rfl⟩

/-- Claim C7 as amended: if the sink's write fails while the forwarding loop
is in its pre-stop select phase, the loop terminates silently at once,
delivering nothing further and leaving the remaining chunks in the channel;
in the draining phase write errors are ignored: every chunk buffered at that
instant is written exactly once (no retry) and the drain runs to completion.
In both phases only this loop is affected. -/
theorem C7_write_fail_amended (k : Nat) (b : Chunk) (rest ch : List Chunk)
    (w : WriterState) (h : w.ok w.calls = false) :
    streamUntilStopped (k + 1) (b :: rest) w = ({ w with calls := w.calls + 1 }, rest)
    ∧ (drain ch w).1.calls = w.calls + ch.length
    ∧ (drain ch w).2 = [] :=
  ⟨streamUntilStopped_write_fail k b rest w h,
    (drainLoop_shape ch w).2.1, (drainLoop_shape ch w).1⟩

/-- Witness for the amended C7 with the fail-first sink. -/
theorem C7_write_fail_amended_witness :
    streamUntilStopped 1 [[97], [98]] failFirst = ({ failFirst with calls := failFirst.calls + 1 }, [[98]])
    ∧ (drain [[5]] failFirst).1.calls = failFirst.calls + [[5]].length
    ∧ (drain [[5]] failFirst).2 = [] :=
  C7_write_fail_amended 0 [97] [[98]] [[5]] failFirst rfl

/-- Claim C8: a forwarding loop attached to stream `B` reads only from the
channel of `B`'s own entry selected by its channel index: every chunk the
sink receives was already in the sink or was buffered on that channel, so a
chunk enqueued on a distinct stream `A` is never written to `B`'s sink; and
the loop leaves every other identifier's registry entry unchanged. -/
theorem C8_isolation (m : streamer) (B : Nat) (sB : stream) (w : WriterState)
    (i : Fin 2) (k : Nat) (hB : getStream m B = some sB) :
    (∃ w', (doStream m B (some w) i k).1 = some w'
        ∧ ∀ c, c ∈ w'.received → c ∈ w.received ∨ c ∈ sB.ch i)
    ∧ ∀ A, A ≠ B → getStream (doStream m B (some w) i k).2 A = getStream m A := by
  constructor
  · refine ⟨(streamUntilStopped k (sB.ch i) w).1, by simp [doStream, hB], ?_⟩
    obtain ⟨l, hl, hs⟩ := streamUntilStopped_received_sublist k (sB.ch i) w
    intro c hc
    rw [hl] at hc
    rcases List.mem_append.mp hc with hcl | hcr
    · exact Or.inl hcl
    · exact Or.inr (hs.subset hcr)
  · intro A hA
    have hB' : mget m.streams B = some sB := hB
    simp only [doStream, getStream, hB']
    exact mget_mput_ne _ _ _ _ hA

/-- Witness for C8 on a registry with two live streams. -/
theorem C8_isolation_witness :
    (∃ w', (doStream ⟨0, 5, 8, [(1, ⟨[[10]], [], false⟩), (2, ⟨[[20]], [], false⟩)]⟩ 2
        (some wAll) 0 1).1 = some w'
        ∧ ∀ c, c ∈ w'.received → c ∈ wAll.received ∨ c ∈ stream.ch ⟨[[20]], [], false⟩ 0)
    ∧ ∀ A, A ≠ 2 →
        getStream (doStream ⟨0, 5, 8, [(1, ⟨[[10]], [], false⟩), (2, ⟨[[20]], [], false⟩)]⟩ 2
          (some wAll) 0 1).2 A
        = getStream ⟨0, 5, 8, [(1, ⟨[[10]], [], false⟩), (2, ⟨[[20]], [], false⟩)]⟩ A :=
  C8_isolation ⟨0, 5, 8, [(1, ⟨[[10]], [], false⟩), (2, ⟨[[20]], [], false⟩)]⟩ 2
    ⟨[[20]], [], false⟩ wAll 0 1 rfl

end Streamer

namespace GardenServer

/-- The stream identifier as carried on the wire by the connection adapter:
the raw value of the `:streamid` path/query parameter. -/
abbrev WireStreamID := String

/-- Extraction of the identifier,
`streamer.StreamID(r.FormValue(":streamid"))` (stream_handling.go:27): in the
encoding in use the identifier is the raw string and the conversion is total,
so no inbound identifier is malformed. -/
def parseStreamID (s : String) : Option WireStreamID := some s

/-- The parts of an inbound `http.Request` the adapter reads: the value of
`r.FormValue(":streamid")`. -/
structure Request where
  streamid : String

/-- Model of the `http.ResponseWriter` together with its `http.Hijacker`: the
status codes written so far, in the order they were written, and whether the
`Hijack()` call on this transport succeeds. -/
structure ResponseWriter where
  statuses : List Nat
  hijackOk : Bool
deriving Repr, DecidableEq

/-- `w.WriteHeader(code)`. -/
def writeHeader (w : ResponseWriter) (code : Nat) : ResponseWriter :=
  { w with statuses := w.statuses ++ [code] }

/-- `streamInfo` (stream_handling.go:26-37): extract the stream id, write
`200 OK`, then hijack the transport; on hijack failure write `500` and
return no connection.  A `some` second component models the id returned
together with the hijacked connection. -/
def streamInfo (w : ResponseWriter) (r : Request) : ResponseWriter × Option WireStreamID :=
  let strm := r.streamid
  let w1 := writeHeader w 200
  if w1.hijackOk then (w1, some strm)
  else (writeHeader w1 500, none)

/-- `handleStdout` (stream_handling.go:10-16): when `streamInfo` yields a
connection, the Registry's `StreamStdout` is invoked with it.  The second
component records the forwarding invocations handed to the Registry, as
pairs of identifier and channel index; it is empty exactly when the Registry
is never consulted. -/
def handleStdout (w : ResponseWriter) (r : Request) :
    ResponseWriter × List (WireStreamID × Fin 2) :=
  match streamInfo w r with
  | (w1, none) => (w1, [])
  | (w1, some sid) => (w1, [(sid, 0)])

/-- `handleStderr` (stream_handling.go:18-24). -/
def handleStderr (w : ResponseWriter) (r : Request) :
    ResponseWriter × List (WireStreamID × Fin 2) :=
  match streamInfo w r with
  | (w1, none) => (w1, [])
  | (w1, some sid) => (w1, [(sid, 1)])

/-- `HandleStream` (server/streamer.go:62-79), the same adapter skeleton on
the `StreamServer` variant: read the id, write `200 OK`, hijack, and on
failure write `500` and return without touching the registry map.  The
second component is the identifier the registry is consulted with, `none`
when the hijack failed and the registry is never touched. -/
def HandleStream (w : ResponseWriter) (r : Request) : ResponseWriter × Option String :=
  let streamid := r.streamid
  let w1 := writeHeader w 200
  if w1.hijackOk then (w1, some streamid)
  else (writeHeader w1 500, none)

/-- Claim C9: in the ID encoding in use the identifier is a raw string, so no
inbound identifier is malformed and the client-error obligation holds
vacuously; when the hijack of the transport fails, the adapter writes the
server-error status 500 and returns with the Registry never consulted (no
forwarding invocation is made). -/
theorem C9_adapter_errors (w : ResponseWriter) (r : Request) (h : w.hijackOk = false) :
    (∀ s : String, (parseStreamID s).isSome = true)
    ∧ streamInfo w r = (writeHeader (writeHeader w 200) 500, none)
    ∧ (handleStdout w r).2 = []
    ∧ (handleStderr w r).2 = [] := by
  refine ⟨fun s => rfl, ?_, ?_, ?_⟩ <;>
    simp [streamInfo, handleStdout, handleStderr, writeHeader, h]

/-- Witness for C9 on a concrete transport whose hijack fails. -/
theorem C9_adapter_errors_witness :
    (∀ s : String, (parseStreamID s).isSome = true)
    ∧ streamInfo ⟨[], false⟩ ⟨"abc"⟩ = (writeHeader (writeHeader ⟨[], false⟩ 200) 500, none)
    ∧ (handleStdout ⟨[], false⟩ ⟨"abc"⟩).2 = []
    ∧ (handleStderr ⟨[], false⟩ ⟨"abc"⟩).2 = [] :=
  C9_adapter_errors ⟨[], false⟩ ⟨"abc"⟩ rfl

/-- Claim C10: on every inbound streaming request the adapter writes the
success status 200 before validating anything and before attempting the
hijack, so the response statuses always begin with 200; when the hijack
fails, the server-error status 500 is written onto a response on which the
success status has already been sent, in both adapter variants. -/
theorem C10_ok_before_hijack (w : ResponseWriter) (r : Request) :
    (streamInfo w r).1.statuses = w.statuses ++ (if w.hijackOk then [200] else [200, 500])
    ∧ (HandleStream w r).1.statuses = w.statuses ++ (if w.hijackOk then [200] else [200, 500]) := by
  by_cases h : w.hijackOk <;>
    simp [streamInfo, HandleStream, writeHeader, h]

end GardenServer
